import Mathlib

/-!
# Verification of the libguestfs daemon ext2/mkfs wrappers

A shallow embedding of the pure parsing and argument-assembly logic of
src/daemon/ext2.c and src/daemon/mkfs.c.  External effects (running the
tool, querying the device) are modelled as inputs: each embedded function
takes the captured tool output, or the reported sector size, or the
file-existence oracle, as an explicit argument, and returns the parsed
result or the assembled argument vector, with fallible paths in
Option/Except.
-/

/-- gnulib c_isspace: the six ASCII whitespace characters. -/
def c_isspace (c : Char) : Bool :=
  c == ' ' || c == '\t' || c == '\n' || c == '\x0b' || c == '\x0c' || c == '\r'

/-- gnulib c_isxdigit: ASCII hexadecimal digits. -/
def c_isxdigit (c : Char) : Bool :=
  ('0' ≤ c && c ≤ '9') || ('a' ≤ c && c ≤ 'f') || ('A' ≤ c && c ≤ 'F')

/-- Scan predicate of strchrnul(p, newline): the character is not a newline. -/
def notNL (c : Char) : Bool := !(c == '\n')

/-- Scan predicate of strchr(p, colon): the character is not a colon. -/
def notColon (c : Char) : Bool := !(c == ':')

/-- The three values that do_tune2fs_l replaces by the empty string
(ext2.c lines 81-83). -/
def noneSpellings : List (List Char) :=
  [("<none>".toList), ("<not available>".toList), ("(none)".toList)]

/-- One iteration body of the do_tune2fs_l line loop (ext2.c lines 71-104):
split the line at the first colon; the key is the part before it and the
value is the part after it with leading c_isspace characters removed,
except that the three "none" spellings become the empty string; a line
with no colon becomes a key with an empty value. -/
def pairOf (line : List Char) : String × String :=
  match line.dropWhile notColon with
  | [] => (String.mk line, "")
  | _ :: after =>
    (String.mk (line.takeWhile notColon),
     if after.dropWhile c_isspace ∈ noneSpellings then ""
     else String.mk (after.dropWhile c_isspace))

/-- Split a character buffer into lines the way the do_tune2fs_l loop does
with strchrnul: each element is a line (without its newline) paired with
whether a terminating newline was present.  A trailing empty unterminated
line is not produced, matching the loop condition "while (*p)". -/
def splitLines : List Char → List (List Char × Bool)
  | [] => []
  | c :: rest =>
    if c = '\n' then ([], true) :: splitLines rest
    else
      match splitLines rest with
      | [] => [([c], false)]
      | (l, b) :: ls => (c :: l, b) :: ls

/-- The do_tune2fs_l line loop (ext2.c lines 62-107) over the split lines.
An empty line reaches "if (!*p) continue;" with p left at the
overwritten newline, so the surrounding "while (*p)" exits: parsing
stops at the first blank line. -/
def pairsOf : List (List Char × Bool) → List (String × String)
  | [] => []
  | (l, _) :: rest => if l = [] then [] else pairOf l :: pairsOf rest

/-- The whole line-reading phase of do_tune2fs_l. -/
def parseLines (cs : List Char) : List (String × String) :=
  pairsOf (splitLines cs)

/-- do_tune2fs_l (ext2.c lines 30-115), applied to the captured stdout of
tune2fs -l.  A leading line beginning with "tune2fs " is discarded; if no
newline follows anywhere, the truncated-output error (modelled as none)
is reported.  The command invocation itself and its failure path are
external and outside the model. -/
def do_tune2fs_l (out : List Char) : Option (List (String × String)) :=
  if ("tune2fs ".toList).isPrefixOf out then
    match out.dropWhile notNL with
    | [] => none
    | _ :: rest => some (parseLines rest)
  else some (parseLines out)

/-- The literal marker do_get_e2uuid searches for (ext2.c line 197). -/
def uuidMarker : List Char := ("\nFilesystem UUID:".toList)

/-- C strstr: the suffix of the haystack beginning at the first occurrence
of the needle, or none when the needle does not occur. -/
def strstr (hay needle : List Char) : Option (List Char) :=
  if needle.isPrefixOf hay then some hay
  else
    match hay with
    | [] => none
    | _ :: t => strstr t needle

/-- The character class scanned as the UUID body (ext2.c line 215). -/
def hexOrDash (c : Char) : Bool := c_isxdigit c || c == '-'

/-- The two error reports of do_get_e2uuid: the marker substring is absent,
or the text after the marker is malformed. -/
inductive E2uuidErr
  | noUUID
  | malformed
deriving DecidableEq

/-- do_get_e2uuid (ext2.c lines 175-234) applied to the captured stdout of
tune2fs -l: find the first occurrence of uuidMarker, step over its 17
characters, skip c_isspace characters (failing at end of string), scan the
maximal run of hex-digit-or-hyphen characters, fail if that scan reached
the end of the string (the "if (!*q)" check), and otherwise return the run. -/
def do_get_e2uuid (out : List Char) : Except E2uuidErr String :=
  match strstr out uuidMarker with
  | none => .error .noUUID
  | some s =>
    let p := (s.drop 17).dropWhile c_isspace
    if p = [] then .error .malformed
    else if p.dropWhile hexOrDash = [] then .error .malformed
    else .ok (String.mk (p.takeWhile hexOrDash))

deriving instance DecidableEq for Except

/-- Fuel-indexed power-of-two test; fuel at least n makes the halving chain
total. -/
def isPow2Aux : Nat → Nat → Bool
  | _, 0 => false
  | 0, _ + 1 => false
  | _ + 1, 1 => true
  | fuel + 1, n + 2 => (n + 2) % 2 == 0 && isPow2Aux fuel ((n + 2) / 2)

/-- Modelled from the spec: is_power_of_2 is declared in the daemon's
shared header, which is not under src/; §4.2 requires the block size to be
"a power of two, else rejected", so this tests whether a positive value
is an exact power of two. -/
def is_power_of_2 (v : Int) : Bool :=
  if 0 < v then isPow2Aux v.toNat v.toNat else false

/-- The bound on the mkfs argument vector (mkfs.c line 32). -/
def MAX_ARGS : Nat := 16

/-- The error reports of do_mkfs_opts before any process is spawned:
invalid block size (mkfs.c line 79), failed sector-size query
(line 90), or an unsupported cluster size carrying the filesystem type,
requested cluster size, sector size, and computed sectors per cluster
(lines 95-96). -/
inductive MkfsErr
  | badBlocksize
  | getssFailed
  | badCluster (fstype : String) (clustersize sectorsize spc : Int)
deriving DecidableEq

/-- The arguments pushed by do_mkfs_opts before the blocksize handling
(mkfs.c lines 44-74), in push order: "mkfs", "-t", fstype, then "-Q" for
ntfs, "-f" for reiserfs, "-f" for jfs, and "-p lock_nolock -j 1 -O" for
gfs or gfs2; each conditional append mirrors one if block of the C code. -/
def mkfs_base_args (fstype : String) : List String :=
  [("mkfs"), ("-t"), fstype]
  ++ (if fstype = "ntfs" then [("-Q")] else [])
  ++ (if fstype = "reiserfs" then [("-f")] else [])
  ++ (if fstype = "jfs" then [("-f")] else [])
  ++ (if fstype = "gfs" ∨ fstype = "gfs2" then
        [("-p"), ("lock_nolock"), ("-j"), ("1"), ("-O")] else [])

/-- do_mkfs_opts (mkfs.c lines 35-133) up to the commandv call: assemble
the argument vector for the given filesystem type, device and optional
block size.  The sector-size query do_blockdev_getss is an external
collaborator; its reply is passed in as sectorsize, with -1 standing for
its failure as in the C code.  The returned list is the argv without the
terminating NULL; an error means the function returns -1 before any
process is spawned. -/
def do_mkfs_opts (fstype device : String) (blocksize : Option Int)
    (sectorsize : Int) : Except MkfsErr (List String) :=
  let a := mkfs_base_args fstype
  match blocksize with
  | none => .ok (a ++ [device])
  | some bs =>
    if bs ≤ 0 ∨ is_power_of_2 bs = false then .error .badBlocksize
    else if fstype = "vfat" ∨ fstype = "msdos" then
      if sectorsize = -1 then .error .getssFailed
      else
        if bs.tdiv sectorsize < 1 ∨ bs.tdiv sectorsize > 128 then
          .error (.badCluster fstype bs sectorsize (bs.tdiv sectorsize))
        else .ok (a ++ [("-s"), toString (bs.tdiv sectorsize)] ++ [device])
    else if fstype = "ntfs" then .ok (a ++ [("-c"), toString bs] ++ [device])
    else .ok (a ++ [("-b"), toString bs] ++ [device])

/-- Modelled from the spec: §4.2 describes the assembled argument vector as
one fixed-order concatenation of segments; this definition follows those
words, to be compared with do_mkfs_opts.  The block-size segment per
§4.2 step 5: -s sectors-per-cluster for the FAT family, -c for ntfs,
-b otherwise. -/
def mkfs_blockArgs_spec (fstype : String) (blocksize : Option Int)
    (sectorsize : Int) : List String :=
  match blocksize with
  | none => []
  | some bs =>
    if fstype = "vfat" ∨ fstype = "msdos" then [("-s"), toString (bs.tdiv sectorsize)]
    else if fstype = "ntfs" then [("-c"), toString bs]
    else [("-b"), toString bs]

/-- Modelled from the spec: §4.2 steps 1-6, the fixed order of the mkfs
argument vector. -/
def mkfs_argv_spec (fstype device : String) (blocksize : Option Int)
    (sectorsize : Int) : List String :=
  [("mkfs"), ("-t"), fstype]
  ++ (if fstype = "ntfs" then [("-Q")] else [])
  ++ (if fstype = "reiserfs" ∨ fstype = "jfs" then [("-f")] else [])
  ++ (if fstype = "gfs" ∨ fstype = "gfs2" then
        [("-p"), ("lock_nolock"), ("-j"), ("1"), ("-O")] else [])
  ++ mkfs_blockArgs_spec fstype blocksize sectorsize
  ++ [device]

/-- The candidate programs of get_mke2fs (ext2.c line 361), in order. -/
def e2progs : List String := [("/sbin/mke4fs"), ("/sbin/mke2fs")]

/-- get_mke2fs (ext2.c lines 358-370): the first candidate that the
access(2) oracle reports as existing, none when neither exists. -/
def get_mke2fs (acc : String → Bool) : Option String :=
  e2progs.find? acc

/-- do_mke2fs_J (ext2.c lines 372-400) up to the command call: resolve the
mke2fs binary and assemble the argument vector; none means the operation
returns -1 without spawning anything. -/
def do_mke2fs_J (acc : String → Bool) (fstype : String) (blocksize : Int)
    (device journal : String) : Option (List String) :=
  match get_mke2fs acc with
  | none => none
  | some prog =>
    some [prog, ("-t"), fstype, ("-J"), ("device=") ++ journal,
          ("-b"), toString blocksize, device]

/-! ## Helper lemmas on character scans -/

theorem takeWhile_eq_of_all {p : Char → Bool} (l : List Char) (c : Char)
    (r : List Char) (hl : ∀ x ∈ l, p x = true) (hc : p c = false) :
    (l ++ c :: r).takeWhile p = l := by
  induction l with
  | nil => simp [List.takeWhile, hc]
  | cons a t ih =>
    have ha : p a = true := hl a (by simp)
    simp only [List.cons_append, List.takeWhile_cons, ha, if_true]
    rw [ih (fun x hx => hl x (by simp [hx]))]

theorem dropWhile_eq_of_all {p : Char → Bool} (l : List Char) (c : Char)
    (r : List Char) (hl : ∀ x ∈ l, p x = true) (hc : p c = false) :
    (l ++ c :: r).dropWhile p = c :: r := by
  induction l with
  | nil => simp [List.dropWhile, hc]
  | cons a t ih =>
    have ha : p a = true := hl a (by simp)
    simp only [List.cons_append, List.dropWhile_cons, ha, if_true]
    exact ih (fun x hx => hl x (by simp [hx]))

theorem dropWhile_eq_nil_of_all {p : Char → Bool} (l : List Char)
    (hl : ∀ x ∈ l, p x = true) : l.dropWhile p = [] := by
  induction l with
  | nil => rfl
  | cons a t ih =>
    have ha : p a = true := hl a (by simp)
    simp only [List.dropWhile_cons, ha, if_true]
    exact ih (fun x hx => hl x (by simp [hx]))

theorem isPrefixOf_rfl (l : List Char) : l.isPrefixOf l = true := by
  induction l with
  | nil => rfl
  | cons a t ih => simp [List.isPrefixOf, ih]

theorem isPrefixOf_append_ext (l a b : List Char) (h : l.isPrefixOf a = true) :
    l.isPrefixOf (a ++ b) = true := by
  induction l generalizing a with
  | nil =>
    generalize a ++ b = x
    cases x <;> rfl
  | cons c t ih =>
    cases a with
    | nil => simp [List.isPrefixOf] at h
    | cons a0 a1 =>
      simp only [List.isPrefixOf, Bool.and_eq_true, beq_iff_eq] at h
      simp only [List.cons_append, List.isPrefixOf, Bool.and_eq_true, beq_iff_eq]
      exact ⟨h.1, ih a1 h.2⟩

theorem xdigit_not_space {c : Char} (h : c_isxdigit c = true) :
    c_isspace c = false := by
  cases hs : c_isspace c with
  | false => rfl
  | true =>
    exfalso
    simp only [c_isspace, Bool.or_eq_true, beq_iff_eq] at hs
    rcases hs with (((((rfl | rfl) | rfl) | rfl) | rfl) | rfl) <;>
      exact absurd h (by decide)

theorem hexOrDash_not_space {c : Char} (h : hexOrDash c = true) :
    c_isspace c = false := by
  simp only [hexOrDash, Bool.or_eq_true, beq_iff_eq] at h
  rcases h with h | rfl
  · exact xdigit_not_space h
  · decide

/-! ## Lemmas about the tune2fs -l line loop -/

theorem splitLines_append_line (l r : List Char) (hl : '\n' ∉ l) :
    splitLines (l ++ '\n' :: r) = (l, true) :: splitLines r := by
  induction l with
  | nil => simp [splitLines]
  | cons a t ih =>
    have ha : ¬ (a = '\n') := fun h => hl (by simp [h])
    have iht := ih (fun h => hl (by simp [h]))
    simp [splitLines, ha, iht]

theorem splitLines_joined (lines : List (List Char))
    (h : ∀ l ∈ lines, '\n' ∉ l) :
    splitLines (lines.map (fun l => l ++ ['\n'])).flatten
      = lines.map (fun l => (l, true)) := by
  induction lines with
  | nil => rfl
  | cons l ls ih =>
    have h1 : '\n' ∉ l := h l (by simp)
    have h2 := ih (fun x hx => h x (by simp [hx]))
    simp only [List.map_cons, List.flatten_cons, List.append_assoc,
      List.singleton_append]
    rw [splitLines_append_line l _ h1, h2]

theorem pairsOf_joined (lines : List (List Char)) (h : ∀ l ∈ lines, l ≠ []) :
    pairsOf (lines.map (fun l => (l, true))) = lines.map pairOf := by
  induction lines with
  | nil => rfl
  | cons l ls ih =>
    have h1 : ¬ (l = []) := h l (by simp)
    have h2 := ih (fun x hx => h x (by simp [hx]))
    simp only [List.map_cons, pairsOf, if_neg h1, h2]

theorem do_tune2fs_l_banner_drop (bl rest : List Char)
    (hb : ("tune2fs ".toList).isPrefixOf (bl ++ '\n' :: rest) = true)
    (hbn : '\n' ∉ bl) :
    do_tune2fs_l (bl ++ '\n' :: rest) = some (parseLines rest) := by
  unfold do_tune2fs_l
  rw [if_pos hb]
  have hdrop : (bl ++ '\n' :: rest).dropWhile notNL = '\n' :: rest := by
    refine dropWhile_eq_of_all bl '\n' rest (fun x hx => ?_) (by decide)
    have : ¬ (x = '\n') := fun h => hbn (by simpa [h] using hx)
    simp [notNL, this]
  rw [hdrop]

/-! ## Claims about do_tune2fs_l -/

/-- C1: For every well-formed tune2fs -l-style output with a banner line —
a banner beginning with "tune2fs " followed by a newline and then
non-blank newline-terminated lines — do_tune2fs_l drops exactly the
banner line and returns one key/value pair per subsequent line in the
original order, each produced by pairOf: the line is split at its first
colon with leading whitespace trimmed from the value (with the "none"
normalization of C4), and a line with no colon is stored as a key with an
empty value. -/
theorem tune2fs_l_wellformed (bl : List Char) (lines : List (List Char))
    (hb : ("tune2fs ".toList).isPrefixOf bl = true)
    (hbn : '\n' ∉ bl)
    (hl : ∀ l ∈ lines, l ≠ [] ∧ '\n' ∉ l) :
    do_tune2fs_l (bl ++ '\n' :: (lines.map (fun l => l ++ ['\n'])).flatten)
      = some (lines.map pairOf) := by
  rw [do_tune2fs_l_banner_drop bl _ (isPrefixOf_append_ext _ bl _ hb) hbn]
  unfold parseLines
  rw [splitLines_joined lines (fun l h => (hl l h).2),
      pairsOf_joined lines (fun l h => (hl l h).1)]

theorem tune2fs_l_wellformed_witness :
    do_tune2fs_l
      (("tune2fs 1.41.12 (17-May-2010)".toList) ++ '\n' ::
       ([("Filesystem volume name:   <none>".toList),
         ("Mount count:          3".toList),
         ("Filesystem flags signed_directory_hash".toList)].map
          (fun l => l ++ ['\n'])).flatten)
      = some ([("Filesystem volume name:   <none>".toList),
               ("Mount count:          3".toList),
               ("Filesystem flags signed_directory_hash".toList)].map pairOf) :=
  tune2fs_l_wellformed ("tune2fs 1.41.12 (17-May-2010)".toList)
    ([("Filesystem volume name:   <none>".toList),
      ("Mount count:          3".toList),
      ("Filesystem flags signed_directory_hash".toList)])
    (by decide) (by decide) (by decide)

/-- C3: the claim states that a blank line after the banner is skipped and
that non-blank lines after it still produce their pairs.  In the code the
skip is "if (!*p) continue;" after the newline has been overwritten with a
NUL and before p is advanced, so the loop condition "while (*p)" is false
and parsing stops: on this input the pair ("Maximum mount count", "-1")
after the blank line is lost, while the claim requires it to be present. -/
theorem tune2fs_l_blank_line_stops :
    do_tune2fs_l (String.toList
        ("tune2fs 1.41.12 (17-May-2010)\nMount count:         3\n\nMaximum mount count: -1\n"))
      = some [(("Mount count"), ("3"))] := by decide

/-- C4: in do_tune2fs_l, a value that after leading-whitespace trim is one
of the three "none" spellings is stored as the empty string, and every
other value is stored verbatim after the trim; noneSpellings lists exactly
the spellings of ext2.c lines 81-83. -/
theorem tune2fs_value_normalization (key after : List Char) (hk : ':' ∉ key) :
    pairOf (key ++ ':' :: after) =
      (String.mk key,
       if after.dropWhile c_isspace ∈ noneSpellings then ""
       else String.mk (after.dropWhile c_isspace)) := by
  unfold pairOf
  have hall : ∀ x ∈ key, notColon x = true := by
    intro x hx
    have : ¬ (x = ':') := fun h => hk (h ▸ hx)
    simp [notColon, this]
  have hd : (key ++ ':' :: after).dropWhile notColon = ':' :: after :=
    dropWhile_eq_of_all key ':' after hall (by decide)
  have ht : (key ++ ':' :: after).takeWhile notColon = key :=
    takeWhile_eq_of_all key ':' after hall (by decide)
  rw [hd, ht]

theorem tune2fs_value_normalization_witness :
    pairOf (("Errors behavior".toList) ++ ':' :: ("   <none>".toList)) =
      (String.mk ("Errors behavior".toList),
       if ("   <none>".toList).dropWhile c_isspace ∈ noneSpellings then ""
       else String.mk (("   <none>".toList).dropWhile c_isspace)) :=
  tune2fs_value_normalization ("Errors behavior".toList)
    ("   <none>".toList) (by decide)

/-- C5: when the output starts with "tune2fs ", that leading line is
discarded as a banner, and when no newline terminates it the operation
fails with the truncated-output error (none) instead of returning pairs. -/
theorem tune2fs_l_banner_handling (out : List Char)
    (hb : ("tune2fs ".toList).isPrefixOf out = true) :
    ('\n' ∉ out → do_tune2fs_l out = none) ∧
    (∀ bl rest, out = bl ++ '\n' :: rest → '\n' ∉ bl →
      do_tune2fs_l out = some (parseLines rest)) := by
  constructor
  · intro hnl
    unfold do_tune2fs_l
    rw [if_pos hb]
    have hall : ∀ x ∈ out, notNL x = true := by
      intro x hx
      have : ¬ (x = '\n') := fun h => hnl (h ▸ hx)
      simp [notNL, this]
    rw [dropWhile_eq_nil_of_all out hall]
  · intro bl rest hout hbn
    subst hout
    exact do_tune2fs_l_banner_drop bl rest hb hbn

theorem tune2fs_l_banner_handling_witness :
    do_tune2fs_l ("tune2fs 1.41.12 (17-May-2010)".toList) = none :=
  (tune2fs_l_banner_handling ("tune2fs 1.41.12 (17-May-2010)".toList)
    (by decide)).1 (by decide)

/-! ## Claims about do_get_e2uuid -/

theorem strstr_eq_none (hay m : List Char)
    (h : ∀ j : Nat, m.isPrefixOf (hay.drop j) = false) : strstr hay m = none := by
  induction hay with
  | nil =>
    have h0 := h 0
    rw [List.drop_zero] at h0
    simp [strstr, h0]
  | cons c t ih =>
    have h0 := h 0
    rw [List.drop_zero] at h0
    have ht : ∀ j : Nat, m.isPrefixOf (t.drop j) = false := by
      intro j
      have := h (j + 1)
      rwa [List.drop_succ_cons] at this
    simp [strstr, h0, ih ht]

theorem strstr_found (hay m : List Char) (h : m.isPrefixOf hay = true) :
    strstr hay m = some hay := by
  unfold strstr
  rw [if_pos h]

theorem strstr_step (c : Char) (t m : List Char)
    (h : m.isPrefixOf (c :: t) = false) : strstr (c :: t) m = strstr t m := by
  conv_lhs => rw [strstr.eq_def]
  rw [if_neg (by simp [h])]

theorem strstr_first_occ (a m t : List Char)
    (h : ∀ j : Nat, j < a.length →
      m.isPrefixOf ((a ++ m ++ t).drop j) = false) :
    strstr (a ++ m ++ t) m = some (m ++ t) := by
  induction a with
  | nil =>
    have hpre : m.isPrefixOf (m ++ t) = true :=
      isPrefixOf_append_ext m m t (isPrefixOf_rfl m)
    simpa using strstr_found (m ++ t) m hpre
  | cons c a1 ih =>
    have h0 := h 0 (by simp)
    rw [List.drop_zero, List.cons_append, List.cons_append] at h0
    have h1 : ∀ j : Nat, j < a1.length →
        m.isPrefixOf ((a1 ++ m ++ t).drop j) = false := by
      intro j hj
      have := h (j + 1) (by simp; omega)
      rwa [List.cons_append, List.cons_append, List.drop_succ_cons] at this
    calc strstr ((c :: a1) ++ m ++ t) m
        = strstr (c :: (a1 ++ m ++ t)) m := by simp
      _ = strstr (a1 ++ m ++ t) m := strstr_step c _ m h0
      _ = some (m ++ t) := ih h1

theorem do_get_e2uuid_eval (out s : List Char)
    (hs : strstr out uuidMarker = some s) :
    do_get_e2uuid out =
      (if (s.drop 17).dropWhile c_isspace = [] then .error .malformed
       else if ((s.drop 17).dropWhile c_isspace).dropWhile hexOrDash = []
         then .error .malformed
       else .ok (String.mk
         (((s.drop 17).dropWhile c_isspace).takeWhile hexOrDash))) := by
  unfold do_get_e2uuid
  rw [hs]

/-- C2 counterexample: in this output the marker is present and the first
non-whitespace character after it is Z, which is neither a hex digit nor a
hyphen, so the maximal leading run is empty; the claim requires a failure
here, but do_get_e2uuid succeeds and returns the empty string, because the
"if (!*q)" test in ext2.c line 217 only fires when the scan stopped at the
terminating NUL, and here it stops at Z itself. -/
theorem do_get_e2uuid_empty_run_succeeds :
    do_get_e2uuid (("\nFilesystem UUID: Z\n").toList) = .ok ("") := by decide

/-- C2 amended: do_get_e2uuid fails with the distinct error noUUID when
the substring "\nFilesystem UUID:" occurs nowhere in the output; when the
marker occurs first at some position and is followed by whitespace, then a
(possibly empty) run of hex-digit-or-hyphen characters, then a character
that ends the run, it succeeds and returns exactly that maximal leading
run — the empty run included; and it fails with the malformed error when
nothing but whitespace and hex-digit-or-hyphen characters follow the
marker to the end of the output, which covers both a marker followed only
by whitespace and a nonempty run that is never terminated. -/
theorem do_get_e2uuid_amended :
    (∀ out : List Char,
       (∀ j : Nat, uuidMarker.isPrefixOf (out.drop j) = false) →
       do_get_e2uuid out = .error .noUUID) ∧
    (∀ a ws u r : List Char, ∀ c : Char,
       (∀ j : Nat, j < a.length →
         uuidMarker.isPrefixOf
           ((a ++ uuidMarker ++ (ws ++ u ++ c :: r)).drop j) = false) →
       (∀ x ∈ ws, c_isspace x = true) →
       (∀ x ∈ u, hexOrDash x = true) →
       hexOrDash c = false →
       (u = [] → c_isspace c = false) →
       do_get_e2uuid (a ++ uuidMarker ++ (ws ++ u ++ c :: r))
         = .ok (String.mk u)) ∧
    (∀ a ws u : List Char,
       (∀ j : Nat, j < a.length →
         uuidMarker.isPrefixOf ((a ++ uuidMarker ++ (ws ++ u)).drop j) = false) →
       (∀ x ∈ ws, c_isspace x = true) →
       (∀ x ∈ u, hexOrDash x = true) →
       do_get_e2uuid (a ++ uuidMarker ++ (ws ++ u)) = .error .malformed) := by
  have hlen : uuidMarker.length = 17 := by decide
  refine ⟨?_, ?_, ?_⟩
  · intro out h
    unfold do_get_e2uuid
    rw [strstr_eq_none out uuidMarker h]
  · intro a ws u r c hfirst hws hu hc hemp
    have hs := strstr_first_occ a uuidMarker (ws ++ u ++ c :: r) hfirst
    rw [do_get_e2uuid_eval _ _ hs]
    have hdrop : (uuidMarker ++ (ws ++ u ++ c :: r)).drop 17 = ws ++ u ++ c :: r := by
      rw [← hlen, List.drop_left]
    rw [hdrop]
    cases u with
    | nil =>
      have hp : (ws ++ [] ++ c :: r).dropWhile c_isspace = c :: r := by
        rw [List.append_nil]
        exact dropWhile_eq_of_all ws c r hws (hemp rfl)
      rw [hp]
      have hcd : (c :: r).dropWhile hexOrDash = c :: r := by
        simp [List.dropWhile_cons, hc]
      have hct : (c :: r).takeWhile hexOrDash = [] := by
        simp [List.takeWhile_cons, hc]
      simp [hcd, hct]
    | cons u0 u1 =>
      have hsp0 : c_isspace u0 = false :=
        hexOrDash_not_space (hu u0 (by simp))
      have hre : ws ++ (u0 :: u1) ++ c :: r = ws ++ u0 :: (u1 ++ c :: r) := by
        simp
      have hp : (ws ++ (u0 :: u1) ++ c :: r).dropWhile c_isspace
          = (u0 :: u1) ++ c :: r := by
        rw [hre]
        rw [dropWhile_eq_of_all ws u0 (u1 ++ c :: r) hws hsp0]
        simp
      rw [hp]
      have hcd : (u0 :: (u1 ++ c :: r)).dropWhile hexOrDash = c :: r := by
        rw [← List.cons_append]
        exact dropWhile_eq_of_all (u0 :: u1) c r hu hc
      have hct : (u0 :: (u1 ++ c :: r)).takeWhile hexOrDash = u0 :: u1 := by
        rw [← List.cons_append]
        exact takeWhile_eq_of_all (u0 :: u1) c r hu hc
      simp [hcd, hct]
  · intro a ws u hfirst hws hu
    have hs := strstr_first_occ a uuidMarker (ws ++ u) hfirst
    rw [do_get_e2uuid_eval _ _ hs]
    have hdrop : (uuidMarker ++ (ws ++ u)).drop 17 = ws ++ u := by
      rw [← hlen, List.drop_left]
    rw [hdrop]
    cases u with
    | nil =>
      have hp : (ws ++ ([] : List Char)).dropWhile c_isspace = [] := by
        rw [List.append_nil]
        exact dropWhile_eq_nil_of_all ws hws
      rw [hp]
      simp
    | cons u0 u1 =>
      have hsp0 : c_isspace u0 = false :=
        hexOrDash_not_space (hu u0 (by simp))
      have hp : (ws ++ u0 :: u1).dropWhile c_isspace = u0 :: u1 := by
        rw [dropWhile_eq_of_all ws u0 u1 hws hsp0]
      rw [hp]
      have hcd : (u0 :: u1).dropWhile hexOrDash = [] :=
        dropWhile_eq_nil_of_all (u0 :: u1) hu
      simp [hcd]

theorem do_get_e2uuid_amended_witness :
    do_get_e2uuid (([] : List Char) ++ uuidMarker ++
        ((" ".toList) ++ ("0746a-bcde".toList) ++ '\n' :: ("Last".toList)))
      = .ok (String.mk ("0746a-bcde".toList)) :=
  do_get_e2uuid_amended.2.1 ([]) (" ".toList) ("0746a-bcde".toList)
    ("Last".toList) '\n'
    (fun j hj => absurd hj (by simp)) (by decide) (by decide) (by decide)
    (by decide)

/-! ## Claims about do_mkfs_opts and get_mke2fs -/

theorem isPow2Aux_two_pow (k : Nat) :
    ∀ fuel : Nat, 2 ^ k ≤ fuel → isPow2Aux fuel (2 ^ k) = true := by
  induction k with
  | zero =>
    intro fuel h
    rw [Nat.pow_zero] at h ⊢
    cases fuel with
    | zero => omega
    | succ f => rfl
  | succ k ih =>
    intro fuel h
    have h2 : 2 ≤ 2 ^ (k + 1) := by
      calc 2 = 2 ^ 1 := (Nat.pow_one 2).symm
        _ ≤ 2 ^ (k + 1) := Nat.pow_le_pow_right (by omega) (by omega)
    obtain ⟨m, hm⟩ : ∃ m, 2 ^ (k + 1) = m + 2 := ⟨2 ^ (k + 1) - 2, by omega⟩
    obtain ⟨f, hf⟩ : ∃ f, fuel = f + 1 := ⟨fuel - 1, by omega⟩
    have hmod : (m + 2) % 2 = 0 := by
      rw [← hm, Nat.pow_succ]
      exact Nat.mul_mod_left (2 ^ k) 2
    have hdiv : (m + 2) / 2 = 2 ^ k := by
      rw [← hm, Nat.pow_succ]
      exact Nat.mul_div_cancel _ (by omega)
    have hfk : 2 ^ k ≤ f := by
      have h1 : 1 ≤ 2 ^ k := Nat.one_le_two_pow
      have hs : 2 ^ (k + 1) = 2 ^ k * 2 := Nat.pow_succ 2 k
      omega
    rw [hm, hf]
    simp only [isPow2Aux, hmod, hdiv]
    simp [ih f hfk]

theorem is_power_of_2_two_pow (k : Nat) : is_power_of_2 ((2 : Int) ^ k) = true := by
  unfold is_power_of_2
  have hpos : (0 : Int) < 2 ^ k := by positivity
  rw [if_pos hpos]
  have ht : ((2 : Int) ^ k).toNat = 2 ^ k := by
    rw [show ((2 : Int) ^ k) = ((2 ^ k : Nat) : Int) by push_cast; ring]
    exact Int.toNat_natCast _
  rw [ht]
  exact isPow2Aux_two_pow k (2 ^ k) (Nat.le_refl _)

/-- C6: with the blocksize flag set, a block size that is non-positive or
not a power of two is rejected with the distinct badBlocksize error — the
model returns the error instead of an argument vector, matching the C
return before any process is spawned — while every power of two passes
this validation. -/
theorem mkfs_blocksize_validation (fstype device : String) (bs ss : Int) :
    ((bs ≤ 0 ∨ is_power_of_2 bs = false) →
      do_mkfs_opts fstype device (some bs) ss = .error .badBlocksize) ∧
    (∀ k : Nat, bs = 2 ^ k →
      do_mkfs_opts fstype device (some bs) ss ≠ .error .badBlocksize) := by
  constructor
  · intro h
    simp only [do_mkfs_opts]
    rw [if_pos h]
  · intro k hk hcontra
    subst hk
    have hcond : ¬ ((2 : Int) ^ k ≤ 0 ∨ is_power_of_2 ((2 : Int) ^ k) = false) := by
      push_neg
      refine ⟨by positivity, ?_⟩
      simp [is_power_of_2_two_pow k]
    simp only [do_mkfs_opts] at hcontra
    rw [if_neg hcond] at hcontra
    split_ifs at hcontra <;> simp_all

theorem mkfs_blocksize_validation_witness :
    do_mkfs_opts ("ext2") ("/dev/sda") (some 3000) 512 = .error .badBlocksize :=
  (mkfs_blocksize_validation ("ext2") ("/dev/sda") 3000 512).1
    (Or.inr (by decide))

/-- C7: for vfat or msdos with an explicit valid block size and a reported
sector size, sectors-per-cluster is the truncating division of the block
size by the sector size; outside [1,128] the request is rejected with the
error carrying the filesystem type, requested cluster size, sector size
and computed sectors-per-cluster, and otherwise the vector carries
"-s sectors-per-cluster" before the device. -/
theorem mkfs_vfat_cluster (fstype device : String) (bs ss : Int)
    (hfs : fstype = "vfat" ∨ fstype = "msdos")
    (hbs : ¬ (bs ≤ 0 ∨ is_power_of_2 bs = false))
    (hss : 0 < ss) :
    ((bs.tdiv ss < 1 ∨ bs.tdiv ss > 128) →
      do_mkfs_opts fstype device (some bs) ss
        = .error (.badCluster fstype bs ss (bs.tdiv ss))) ∧
    (1 ≤ bs.tdiv ss → bs.tdiv ss ≤ 128 →
      do_mkfs_opts fstype device (some bs) ss
        = .ok ([("mkfs"), ("-t"), fstype, ("-s"), toString (bs.tdiv ss),
                device])) := by
  have hne : ¬ (ss = -1) := by omega
  rcases hfs with rfl | rfl <;>
    refine ⟨fun h => ?_, fun h1 h2 => ?_⟩ <;>
    simp only [do_mkfs_opts] <;>
    rw [if_neg hbs] <;>
    [skip; rw [if_neg (show ¬ (bs.tdiv ss < 1 ∨ bs.tdiv ss > 128) by omega)];
     skip; rw [if_neg (show ¬ (bs.tdiv ss < 1 ∨ bs.tdiv ss > 128) by omega)]] <;>
    simp [hne, mkfs_base_args, *]

theorem mkfs_vfat_cluster_witness :
    do_mkfs_opts ("vfat") ("/dev/sda1") (some 8192) 512
      = .ok ([("mkfs"), ("-t"), ("vfat"), ("-s"),
              toString (Int.tdiv 8192 512), ("/dev/sda1")]) :=
  (mkfs_vfat_cluster ("vfat") ("/dev/sda1") 8192 512 (Or.inl rfl)
    (by decide) (by decide)).2 (by decide) (by decide)

theorem mkfs_base_args_eq (fstype : String) :
    mkfs_base_args fstype
      = [("mkfs"), ("-t"), fstype]
        ++ (if fstype = "ntfs" then [("-Q")] else [])
        ++ (if fstype = "reiserfs" ∨ fstype = "jfs" then [("-f")] else [])
        ++ (if fstype = "gfs" ∨ fstype = "gfs2" then
              [("-p"), ("lock_nolock"), ("-j"), ("1"), ("-O")] else []) := by
  unfold mkfs_base_args
  by_cases h2 : fstype = "reiserfs" <;> by_cases h3 : fstype = "jfs" <;> simp_all

theorem do_mkfs_opts_ok_shape (fstype device : String) (obs : Option Int)
    (ss : Int) (argv : List String)
    (h : do_mkfs_opts fstype device obs ss = .ok argv) :
    argv = mkfs_argv_spec fstype device obs ss := by
  unfold do_mkfs_opts at h
  unfold mkfs_argv_spec mkfs_blockArgs_spec
  rw [mkfs_base_args_eq] at h
  cases obs with
  | none =>
    simp only at h
    simp_all
  | some bs =>
    simp only at h
    split_ifs at h <;> simp_all

/-- C8: every argument vector do_mkfs_opts hands to commandv has the fixed
order stated by the spec: "mkfs -t fstype" first, then "-Q" exactly for
ntfs, then "-f" exactly for reiserfs or jfs, then the gfs/gfs2 block
"-p lock_nolock -j 1 -O" exactly once, then the block-size flag pair when
a block size was requested ("-s" for the FAT family, "-c" for ntfs, "-b"
otherwise), and the device last; mkfs_argv_spec is that fixed order
written out from the spec. -/
theorem mkfs_argv_fixed_order (fstype device : String) (obs : Option Int)
    (ss : Int) (argv : List String)
    (h : do_mkfs_opts fstype device obs ss = .ok argv) :
    argv = mkfs_argv_spec fstype device obs ss :=
  do_mkfs_opts_ok_shape fstype device obs ss argv h

theorem mkfs_argv_fixed_order_witness :
    [("mkfs"), ("-t"), ("gfs2"), ("-p"), ("lock_nolock"), ("-j"), ("1"),
     ("-O"), ("-b"), ("4096"), ("/dev/sda")]
      = mkfs_argv_spec ("gfs2") ("/dev/sda") (some 4096) 512 :=
  mkfs_argv_fixed_order ("gfs2") ("/dev/sda") (some 4096) 512
    ([("mkfs"), ("-t"), ("gfs2"), ("-p"), ("lock_nolock"), ("-j"), ("1"),
      ("-O"), ("-b"), ("4096"), ("/dev/sda")]) (by decide)

theorem mkfs_argv_spec_length (fstype device : String) (obs : Option Int)
    (ss : Int) : (mkfs_argv_spec fstype device obs ss).length ≤ 11 := by
  unfold mkfs_argv_spec mkfs_blockArgs_spec
  by_cases h3 : fstype = "gfs" ∨ fstype = "gfs2"
  · have h1 : ¬ (fstype = "ntfs") := by rcases h3 with rfl | rfl <;> decide
    have h2 : ¬ (fstype = "reiserfs") := by rcases h3 with rfl | rfl <;> decide
    have h4 : ¬ (fstype = "jfs") := by rcases h3 with rfl | rfl <;> decide
    have h5 : ¬ (fstype = "vfat" ∨ fstype = "msdos") := by
      rcases h3 with rfl | rfl <;> decide
    simp only [h1, h2, h4, h3, h5, if_true, if_false, if_pos, if_neg,
      not_false_iff]
    cases obs <;> simp_all
  · simp only [h3, if_neg, not_false_iff]
    cases obs <;> split_ifs <;> simp_all

/-- C10: every argument vector do_mkfs_opts successfully assembles has at
most 11 entries, hence at most 12 cells including the terminating NULL:
the C index i ends at argv.length + 1, so the abort condition
"i > MAX_ARGS" with MAX_ARGS = 16 can never hold. -/
theorem mkfs_argv_within_bound (fstype device : String) (obs : Option Int)
    (ss : Int) (argv : List String)
    (h : do_mkfs_opts fstype device obs ss = .ok argv) :
    argv.length + 1 ≤ 12 ∧ ¬ (argv.length + 1 > MAX_ARGS) := by
  have hs := do_mkfs_opts_ok_shape fstype device obs ss argv h
  have hl := mkfs_argv_spec_length fstype device obs ss
  rw [hs]
  have hmax : MAX_ARGS = 16 := rfl
  omega

theorem mkfs_argv_within_bound_witness :
    ([("mkfs"), ("-t"), ("gfs2"), ("-p"), ("lock_nolock"), ("-j"), ("1"),
      ("-O"), ("-b"), ("4096"), ("/dev/sda")] : List String).length + 1 ≤ 12
    ∧ ¬ (([("mkfs"), ("-t"), ("gfs2"), ("-p"), ("lock_nolock"), ("-j"),
          ("1"), ("-O"), ("-b"), ("4096"), ("/dev/sda")]
            : List String).length + 1 > MAX_ARGS) :=
  mkfs_argv_within_bound ("gfs2") ("/dev/sda") (some 4096) 512
    ([("mkfs"), ("-t"), ("gfs2"), ("-p"), ("lock_nolock"), ("-j"), ("1"),
      ("-O"), ("-b"), ("4096"), ("/dev/sda")]) (by decide)

/-- C9: get_mke2fs returns "/sbin/mke4fs" whenever the existence oracle
accepts that path — also when "/sbin/mke2fs" exists too — returns
"/sbin/mke2fs" when only it exists, and when neither exists reports the
distinct error (none) and do_mke2fs_J spawns nothing, assembling no
argument vector. -/
theorem get_mke2fs_resolution (acc : String → Bool) :
    (acc ("/sbin/mke4fs") = true → get_mke2fs acc = some ("/sbin/mke4fs")) ∧
    (acc ("/sbin/mke4fs") = false → acc ("/sbin/mke2fs") = true →
      get_mke2fs acc = some ("/sbin/mke2fs")) ∧
    (acc ("/sbin/mke4fs") = false → acc ("/sbin/mke2fs") = false →
      get_mke2fs acc = none ∧
      ∀ ft : String, ∀ bs : Int, ∀ dev jour : String,
        do_mke2fs_J acc ft bs dev jour = none) := by
  refine ⟨?_, ?_, ?_⟩
  · intro h4
    simp [get_mke2fs, e2progs, List.find?, h4]
  · intro h4 h2
    simp [get_mke2fs, e2progs, List.find?, h4, h2]
  · intro h4 h2
    have hg : get_mke2fs acc = none := by
      simp [get_mke2fs, e2progs, List.find?, h4, h2]
    exact ⟨hg, fun ft bs dev jour => by simp [do_mke2fs_J, hg]⟩

theorem get_mke2fs_resolution_witness :
    get_mke2fs (fun s => s == ("/sbin/mke4fs")) = some ("/sbin/mke4fs") :=
  (get_mke2fs_resolution (fun s => s == ("/sbin/mke4fs"))).1 (by decide)
